import Mathlib

/-!
Shallow embedding of `sncosmo/plotting.py` (light-curve plots, posterior
corner plots, SED animation).  Pure layout and numeric computations are
translated into Lean functions; calls into matplotlib are represented by
the values this module would hand to them.  Python floats are modelled as
rationals where no square root occurs, and as reals in the corner-plot
statistics.  The file is organised as: data model, computations of
`plot_lc`, computations of `plot_param_samples`, computations of
`animate_model`, then the theorems.
-/

namespace SncosmoPlotting

/-- Bandpass object: an external filter identified by a name, carrying an
effective wavelength (`wave_eff`), as described in the spec glossary. -/
structure Bandpass where
  name : String
  wave_eff : ℚ
deriving DecidableEq

/-- Argument that designates a band: either a name to be looked up in the
external registry, or a `Bandpass` object itself. -/
inductive BandRef where
  | byName (s : String)
  | byBand (b : Bandpass)
deriving DecidableEq

/-- Modelled from the spec: `get_bandpass` (module `sncosmo.spectral`, outside
`src/`) resolves a band identified by name through an external lookup table
and returns a `Bandpass` object unchanged.  The lookup table is abstracted
as the function `registry`. -/
def get_bandpass (registry : String → Bandpass) : BandRef → Bandpass
  | .byName s => registry s
  | .byBand b => b

/-- Row of the photometric dataset: (time, band, flux, flux error), as in
the spec data model. -/
structure PhotPoint where
  time : ℚ
  band : BandRef
  flux : ℚ
  fluxerr : ℚ
deriving DecidableEq

/-- Photometric dataset: a table of rows. -/
structure PhotData where
  rows : List PhotPoint
deriving DecidableEq

/-- Modelled from the spec: `standardize_data` and `normalize_data` (module
`sncosmo.photdata`, outside `src/`) bring the table to a standard form and
rescale `flux` and `fluxerr` to the common zero point; the time and band
columns are unchanged.  The per-band rescaling factor is abstracted as
`scale`. -/
def normalize_data (scale : BandRef → ℚ) (d : PhotData) : PhotData :=
  ⟨d.rows.map fun p =>
    { p with flux := scale p.band * p.flux,
             fluxerr := scale p.band * p.fluxerr }⟩

/-- Observational model (`sncosmo.ObsModel`): a read-only object exposing
parameter names and values (index 1 of `parameters` is the reference time
used for the time-axis shift), band coverage, and band-integrated flux at a
given time.  The flux evaluation is the external model computation,
abstracted as the function field `bandflux_at`. -/
structure ObsModel where
  name : String
  param_names : List String
  parameters : List ℚ
  bandoverlap : Bandpass → Bool
  bandflux_at : Bandpass → ℚ → ℚ

instance : Inhabited ObsModel := ⟨⟨"", [], [], fun _ => false, fun _ _ => 0⟩⟩

/-- Argument form of the `model` parameter of `plot_lc`: a single model or a
list of models (the Python argument also accepts `None`, represented here by
`Option ModelArg`). -/
inductive ModelArg where
  | single (m : ObsModel)
  | listOf (ms : List ObsModel)

/-- Lines 117 to 123 of `plot_lc`: normalize the `model` argument to a list
of models.  The subsequent `isinstance` check (line 124) is enforced
statically by the type `ObsModel`. -/
def resolve_models : Option ModelArg → List ObsModel
  | none => []
  | some (.single m) => [m]
  | some (.listOf ms) => ms

/-- Lines 132 to 143 of `plot_lc`: the set of bands to plot.  Python sets
are represented as deduplicated lists; the set intersection on line 142
becomes a filter by membership. -/
def select_bands (registry : String → Bandpass) (data : Option PhotData)
    (bands : Option (List BandRef)) : List Bandpass :=
  match data with
  | none => ((bands.getD []).map (get_bandpass registry)).dedup
  | some d =>
    let data_bands := d.rows.map fun p => get_bandpass registry p.band
    let unique_data_bands := data_bands.dedup
    match bands with
    | none => unique_data_bands
    | some bs =>
      ((bs.map (get_bandpass registry)).dedup).filter
        fun b => decide (b ∈ unique_data_bands)

/-- Lookup in an association list representing a Python dict. -/
def dict_find : List (BandRef × ℚ) → BandRef → Option ℚ
  | [], _ => none
  | kv :: rest, k => if kv.1 = k then some kv.2 else dict_find rest k

/-- Key removal (`dict.pop`). -/
def dict_erase : List (BandRef × ℚ) → BandRef → List (BandRef × ℚ)
  | [], _ => []
  | kv :: rest, k =>
    if kv.1 = k then dict_erase rest k else kv :: dict_erase rest k

/-- Key assignment (`dict[k] = v`). -/
def dict_set : List (BandRef × ℚ) → BandRef → ℚ → List (BandRef × ℚ)
  | [], k, v => [(k, v)]
  | kv :: rest, k, v =>
    if kv.1 = k then (k, v) :: rest else kv :: dict_set rest k v

/-- Membership test (`k in dict`). -/
def dict_has (d : List (BandRef × ℚ)) (k : BandRef) : Bool :=
  (dict_find d k).isSome

/-- Lines 146 to 152 of `plot_lc`: in-place update of the caller-supplied
offsets dict.  The first loop pops every original key and re-inserts its
current value under the resolved `Bandpass` key; the second loop inserts a
zero entry for every selected band that has no entry yet.  The source
iterates the dict while mutating it; the embedding iterates a snapshot of
the original items, which is the intended behaviour. -/
def process_offsets (registry : String → Bandpass) (selected : List Bandpass)
    (offsets : List (BandRef × ℚ)) : List (BandRef × ℚ) :=
  let canon := offsets.foldl
    (fun d kv =>
      let v := (dict_find d kv.1).getD kv.2
      dict_set (dict_erase d kv.1) (.byBand (get_bandpass registry kv.1)) v)
    offsets
  selected.foldl
    (fun d b => if dict_has d (.byBand b) then d else dict_set d (.byBand b) 0)
    canon

/-- Line 110 of `plot_lc`: the wavelengths corresponding to the two ends of
the color map. -/
def cm_wave_range : ℚ × ℚ := (3000, 10000)

/-- Lines 219 to 220 of `plot_lc`: fraction of the color map assigned to a
band of effective wavelength `wave`. -/
def cmap_fraction (wave : ℚ) : ℚ :=
  (cm_wave_range.2 - wave) / (cm_wave_range.2 - cm_wave_range.1)

/-- Modelled from the spec: the external rainbow color map clamps an input
fraction outside [0, 1] to the nearest boundary before mapping it to a
color (spec: bands outside the range clamp at map boundaries).  The
embedding tracks the clamped fraction the color map actually uses. -/
def cmap_input (wave : ℚ) : ℚ :=
  min 1 (max 0 (cmap_fraction wave))

/-- Line 184 of `plot_lc`: number of subplot columns. -/
def lc_ncol : ℤ := 2

/-- Lines 183 to 185 of `plot_lc`: number of subplot rows, from the number
of selected bands.  Python floor division is `Int.fdiv`. -/
def lc_nrow (nsubplots : ℕ) : ℤ :=
  Int.fdiv ((nsubplots : ℤ) - 1) lc_ncol + 1

/-- Lines 187 to 194 of `plot_lc`: figure size from the optional `xfigsize`
and `yfigsize` arguments, or an error when both are given.  Division is true
division (the module imports division from future), and a division by zero
raises `ZeroDivisionError` in Python: the branch for `xfigsize` divides by
`ncol` and the branch for `yfigsize` divides by `nrow`, so each returns
that error when its divisor is zero (`nrow` is zero exactly when the
selected band set is empty). -/
def figsize_calc (ncol nrow : ℤ) (xfigsize yfigsize : Option ℚ) :
    Except String (ℚ × ℚ) :=
  match xfigsize, yfigsize with
  | none, none => .ok (4 * (ncol : ℚ), 3 * (nrow : ℚ))
  | some x, none =>
    if ncol = 0 then .error "float division by zero"
    else .ok (x, 3 / 4 * (nrow : ℚ) / (ncol : ℚ) * x)
  | none, some y =>
    if nrow = 0 then .error "float division by zero"
    else .ok (4 / 3 * (ncol : ℚ) / (nrow : ℚ) * y, y)
  | some _, some _ => .error "cannot specify both xfigsize and yfigsize"

/-- Ordering of bands by effective wavelength, used on line 216 of `plot_lc`
(`sorted(zip(waves, bands))`).  Ties between distinct bands of equal
effective wavelength are ordered by the unspecified Python object
comparison; the embedding keeps them in input order (stable sort). -/
def band_le (b1 b2 : Bandpass) : Prop := b1.wave_eff ≤ b2.wave_eff

instance : DecidableRel band_le := fun b1 b2 => by
  unfold band_le; infer_instance

instance : IsTotal Bandpass band_le := ⟨fun a b => le_total a.wave_eff b.wave_eff⟩

instance : IsTrans Bandpass band_le := ⟨fun _ _ _ h1 h2 => le_trans h1 h2⟩

/-- Line 216 of `plot_lc`: the bands are drawn in increasing order of
effective wavelength. -/
def sort_bands (bands : List Bandpass) : List Bandpass :=
  bands.insertionSort band_le

/-- Subplot number (`axnum`, 1-based) that the loop starting at line 215 of
`plot_lc` assigns to band `b`. -/
def axnum_of (bands : List Bandpass) (b : Bandpass) : ℕ :=
  (sort_bands bands).indexOf b + 1

/-- Line 233 of `plot_lc`: the data points belonging to `band`
(`idx = data_bands == band`). -/
def band_data_points (registry : String → Bandpass) (d : PhotData)
    (band : Bandpass) : List PhotPoint :=
  d.rows.filter fun p => decide (get_bandpass registry p.band = band)

/-- Lines 299 to 302 of `plot_lc`: normalized residual plotted for one data
point: the band flux of the model at the point time, plus the per-band
offset when the offsets mapping has an entry for the band, subtracted from
the observed flux and divided by the flux error. -/
def pull_value (m : ObsModel) (band : Bandpass)
    (offsets : Option (List (BandRef × ℚ))) (p : PhotPoint) : ℚ :=
  let mflux := m.bandflux_at band p.time
  let mflux2 :=
    match offsets with
    | none => mflux
    | some d =>
      match dict_find d (.byBand band) with
      | some o => mflux + o
      | none => mflux
  (p.flux - mflux2) / p.fluxerr

/-- Lines 294 to 304 of `plot_lc`: the pulls sub-panel.  It is drawn exactly
when the `pulls` flag is set, data is present, there is exactly one model,
and the model overlaps the band; its points are the normalized residuals of
the data points of the band. -/
def pulls_panel (registry : String → Bandpass) (pulls : Bool)
    (data : Option PhotData) (models : List ObsModel)
    (offsets : Option (List (BandRef × ℚ))) (band : Bandpass) :
    Option (List ℚ) :=
  match data with
  | none => none
  | some d =>
    if pulls && models.length == 1 && (models.headI).bandoverlap band then
      some ((band_data_points registry d band).map
        (pull_value models.headI band offsets))
    else
      none

/-- Per-band offset actually applied by `plot_lc` at lines 257 and 300: the
entry of the offsets mapping for the band, if any, and 0 otherwise. -/
def offset_applied (offsets : Option (List (BandRef × ℚ)))
    (band : Bandpass) : ℚ :=
  match offsets with
  | none => 0
  | some d => (dict_find d (.byBand band)).getD 0

/-- Values computed by `plot_lc` before any drawing: the bands in drawing
order, the grid layout, the figure size, and the offsets mapping as left by
the in-place update. -/
structure LcSetup where
  sorted_bands : List Bandpass
  ncol : ℤ
  nrow : ℤ
  figsize : ℚ × ℚ
  offsets : Option (List (BandRef × ℚ))
deriving DecidableEq

/-- Validation and layout phase of `plot_lc` (lines 112 to 203): the eager
input checks, band selection, offsets canonicalization and figure sizing,
in source order.  The matplotlib figure is created only from an `.ok`
result, so an `.error` result means the call raises before producing any
figure output.  The caption text assembled on lines 159 to 180 contributes
only its column count (two extra columns when exactly one model is given,
formatted by the external `value_error_str`); its contents do not affect
the layout beyond the height adjustment on lines 196 to 200. -/
def plot_lc_setup (registry : String → Bandpass) (scale : BandRef → ℚ)
    (data : Option PhotData) (model : Option ModelArg)
    (bands : Option (List BandRef)) (offsets : Option (List (BandRef × ℚ)))
    (xfigsize yfigsize : Option ℚ) (figtext : List String)
    (figtextsize : ℚ) : Except String LcSetup :=
  if data.isNone && model.isNone then
    .error "must specify at least one of: data, model"
  else if data.isNone && bands.isNone then
    .error "must specify bands to plot for model(s)"
  else
    let models := resolve_models model
    let ndata := data.map (normalize_data scale)
    let sel := select_bands registry ndata bands
    let offsets2 := offsets.map (process_offsets registry sel)
    let nfigtext := figtext.length + (if models.length = 1 then 2 else 0)
    let nrow := lc_nrow sel.length
    match figsize_calc lc_ncol nrow xfigsize yfigsize with
    | .error e => .error e
    | .ok fs =>
      let fs2 := if 0 < nfigtext then (fs.1, fs.2 + figtextsize) else fs
      .ok { sorted_bands := sort_bands sel, ncol := lc_ncol, nrow := nrow,
            figsize := fs2, offsets := offsets2 }

section CornerPlot

/- The corner-plot statistics involve a square root, so they are embedded
over the real numbers; these definitions are the only non-executable ones. -/

/-- Line 350 of `plot_param_samples` (`np.average`): the mean of the
samples, weighted when a weight vector is given. -/
noncomputable def np_average (xs : List ℝ) (ws : Option (List ℝ)) : ℝ :=
  match ws with
  | none => xs.sum / xs.length
  | some w => (List.zipWith (fun a x => a * x) w xs).sum / w.sum

/-- Line 352 of `plot_param_samples` (`np.std`): the population standard
deviation. -/
noncomputable def np_std (xs : List ℝ) : ℝ :=
  Real.sqrt ((xs.map fun x => (x - np_average xs none) ^ 2).sum / xs.length)

/-- Lines 351 to 355 of `plot_param_samples`: the standard deviation the
code uses, `np.std` without weights, and the square root of
`sum(w * x^2) - avg^2` with weights. -/
noncomputable def sample_std (xs : List ℝ) (ws : Option (List ℝ)) : ℝ :=
  match ws with
  | none => np_std xs
  | some w =>
    Real.sqrt
      ((List.zipWith (fun a x => a * x) w (xs.map fun x => x ^ 2)).sum
        - np_average xs (some w) ^ 2)

/-- Column `i` of the sample matrix (`samples[:, i]`). -/
def sample_column (samples : List (List ℝ)) (i : ℕ) : List ℝ :=
  samples.map fun row => row.getD i 0

/-- Lines 362 and 364 of `plot_param_samples`: the displayed axis window for
parameter `i` runs from `avg[i] - 5*std[i]` to `avg[i] + 5*std[i]` with the
statistics of the code above. -/
noncomputable def param_samples_window (samples : List (List ℝ)) (ws : Option (List ℝ))
    (i : ℕ) : ℝ × ℝ :=
  (np_average (sample_column samples i) ws
      - 5 * sample_std (sample_column samples i) ws,
   np_average (sample_column samples i) ws
      + 5 * sample_std (sample_column samples i) ws)

/-- Follows the spec words, for comparison with the code: the unweighted
mean. -/
noncomputable def spec_mean (xs : List ℝ) : ℝ := xs.sum / xs.length

/-- Follows the spec words, for comparison with the code: the unweighted
(population) standard deviation. -/
noncomputable def spec_std (xs : List ℝ) : ℝ :=
  Real.sqrt ((xs.map fun x => (x - spec_mean xs) ^ 2).sum / xs.length)

/-- Follows the spec words, for comparison with the code: the weighted
mean. -/
noncomputable def spec_weighted_mean (w xs : List ℝ) : ℝ :=
  (List.zipWith (fun a x => a * x) w xs).sum / w.sum

/-- Follows the spec words, for comparison with the code: the weighted
standard deviation, the square root of the weighted average of the squared
deviations from the weighted mean. -/
noncomputable def spec_weighted_std (w xs : List ℝ) : ℝ :=
  Real.sqrt
    ((List.zipWith (fun a x => a * (x - spec_weighted_mean w xs) ^ 2) w xs).sum
      / w.sum)

/-- Follows the claim, for comparison with the code: the window from
`mean - 5*std` to `mean + 5*std`, with the unweighted statistics when no
weight vector is given and the weighted ones when one is given. -/
noncomputable def spec_window (xs : List ℝ) (ws : Option (List ℝ)) : ℝ × ℝ :=
  match ws with
  | none => (spec_mean xs - 5 * spec_std xs, spec_mean xs + 5 * spec_std xs)
  | some w => (spec_weighted_mean w xs - 5 * spec_weighted_std w xs,
               spec_weighted_mean w xs + 5 * spec_weighted_std w xs)

end CornerPlot

/-- Spectral model as used by `animate_model`: only the reference phase
enters the time-offset computation (lines 495 to 498). -/
structure AnimModel where
  name : String
  refphase : ℚ
deriving DecidableEq

instance : Inhabited AnimModel := ⟨⟨"", 0⟩⟩

/-- Lines 495 to 498 of `animate_model`: the per-model time offsets, the
difference to the reference phase of the first model when `match_refphase`
is set, and all zero otherwise.  (Python indexes `models[0]` and errors on
an empty list; the embedding totalizes with the default model.) -/
def time_offsets (models : List AnimModel) (matchRefphase : Bool) : List ℚ :=
  let offs := models.map fun m => m.refphase - (models.headI).refphase
  if matchRefphase then offs else List.replicate models.length 0

/-- Test whether a call, embedded as an `Except` result, raised. -/
def except_raised {ε α : Type} : Except ε α → Bool
  | .error _ => true
  | .ok _ => false

instance {ε α : Type} [DecidableEq ε] [DecidableEq α] :
    DecidableEq (Except ε α) := fun a b => by
  cases a <;> cases b
  · rename_i x y
    exact if h : x = y then isTrue (by rw [h]) else isFalse (by simp [h])
  · exact isFalse (by simp)
  · exact isFalse (by simp)
  · rename_i x y
    exact if h : x = y then isTrue (by rw [h]) else isFalse (by simp [h])

/-! Theorems. -/

/-- C1: when data is given and `bands` is `None`, the set of bands rendered
is exactly the set of distinct bandpasses present in the data; when data
and an explicit band list are both given, it is exactly the intersection of
the requested bands with the bands present in the data; when no data is
given, it is exactly the requested bands. -/
theorem select_bands_spec (registry : String → Bandpass) (d : PhotData)
    (bs : List BandRef) :
    (select_bands registry (some d) none).toFinset
        = (d.rows.map fun p => get_bandpass registry p.band).toFinset
    ∧ (select_bands registry (some d) (some bs)).toFinset
        = (bs.map (get_bandpass registry)).toFinset
            ∩ (d.rows.map fun p => get_bandpass registry p.band).toFinset
    ∧ (select_bands registry none (some bs)).toFinset
        = (bs.map (get_bandpass registry)).toFinset := by
  refine ⟨?_, ?_, ?_⟩ <;>
    · ext b
      simp [select_bands, List.mem_dedup, List.mem_filter]

/-- Helper: `getD` through a `List.map`, inside the list bounds. -/
theorem getD_map_of_lt {α β : Type} [Inhabited α] (f : α → β) (l : List α)
    (k : ℕ) (d : β) (hk : k < l.length) :
    (l.map f).getD k d = f (l.getD k default) := by
  rw [List.getD_eq_getElem?_getD, List.getD_eq_getElem?_getD,
    List.getElem?_map, List.getElem?_eq_getElem hk]
  simp

/-- C3: in `animate_model`, with `match_refphase` enabled the time offset of
model `k` equals `refphase_k - refphase_0` (so the offset of the first
model is zero); with it disabled every offset equals zero. -/
theorem time_offsets_match_refphase (models : List AnimModel) (k : ℕ)
    (hk : k < models.length) :
    (time_offsets models true).getD k 0
        = (models.getD k default).refphase - (models.getD 0 default).refphase
    ∧ (time_offsets models false).getD k 0 = 0
    ∧ (time_offsets models true).getD 0 0 = 0 := by
  cases models with
  | nil => simp at hk
  | cons m ms =>
    have h0 : 0 < (m :: ms).length := by simp
    refine ⟨?_, ?_, ?_⟩
    · show ((m :: ms).map fun x => x.refphase - (m :: ms).headI.refphase).getD k 0
        = ((m :: ms).getD k default).refphase - ((m :: ms).getD 0 default).refphase
      rw [getD_map_of_lt _ _ _ _ hk]
      simp [List.headI]
    · show (List.replicate (m :: ms).length (0 : ℚ)).getD k 0 = 0
      rw [List.getD_eq_getElem?_getD, List.getElem?_replicate]
      split <;> simp
    · show ((m :: ms).map fun x => x.refphase - (m :: ms).headI.refphase).getD 0 0 = 0
      rw [getD_map_of_lt _ _ _ _ h0]
      simp [List.headI]

/-- C4: `plot_lc` raises a `ValueError` when both `data` and `model` are
absent, and when models are given but `data` is absent and no explicit band
list is given; in both cases the error is returned before the `.ok` payload
(from which alone the figure is created) is ever built. -/
theorem plot_lc_missing_inputs (registry : String → Bandpass)
    (scale : BandRef → ℚ) (data : Option PhotData) (model : Option ModelArg)
    (bands : Option (List BandRef)) (offsets : Option (List (BandRef × ℚ)))
    (xf yf : Option ℚ) (ft : List String) (fts : ℚ) :
    (data = none → model = none →
      plot_lc_setup registry scale data model bands offsets xf yf ft fts
        = .error "must specify at least one of: data, model")
    ∧ (∀ M : ModelArg, model = some M → data = none → bands = none →
      plot_lc_setup registry scale data model bands offsets xf yf ft fts
        = .error "must specify bands to plot for model(s)") := by
  constructor
  · rintro rfl rfl
    rfl
  · rintro M rfl rfl rfl
    rfl

/-- Witness for C3 at a concrete two-model list. -/
theorem time_offsets_match_refphase_witness :
    (1 < ([⟨"a", 1⟩, ⟨"b", 3⟩] : List AnimModel).length)
    ∧ ((time_offsets [⟨"a", 1⟩, ⟨"b", 3⟩] true).getD 1 0
        = (([⟨"a", 1⟩, ⟨"b", 3⟩] : List AnimModel).getD 1 default).refphase
          - (([⟨"a", 1⟩, ⟨"b", 3⟩] : List AnimModel).getD 0 default).refphase
      ∧ (time_offsets [⟨"a", 1⟩, ⟨"b", 3⟩] false).getD 1 0 = 0
      ∧ (time_offsets [⟨"a", 1⟩, ⟨"b", 3⟩] true).getD 0 0 = 0) :=
  ⟨by simp, time_offsets_match_refphase [⟨"a", 1⟩, ⟨"b", 3⟩] 1 (by simp)⟩

/-- Witness for C4 at concrete argument lists. -/
theorem plot_lc_missing_inputs_witness :
    plot_lc_setup (fun _ => ⟨"b", 5000⟩) (fun _ => 1) none none none none
        none none [] 1
      = .error "must specify at least one of: data, model"
    ∧ plot_lc_setup (fun _ => ⟨"b", 5000⟩) (fun _ => 1) none
        (some (.listOf [])) none none none none [] 1
      = .error "must specify bands to plot for model(s)" :=
  ⟨(plot_lc_missing_inputs _ _ _ _ _ _ _ _ _ _).1 rfl rfl,
   (plot_lc_missing_inputs _ _ _ _ _ _ _ _ _ _).2 (.listOf []) rfl rfl rfl⟩

/-- Counterexample to C7: with at most one figure-size option given, the
call can still raise on account of that option.  Concrete call: data whose
only band is not among the requested bands, so the selected band set is
empty and `nrow = 0`; with only `yfigsize` given, line 192 divides by
`nrow` and raises `ZeroDivisionError`, while the identical call with no
figure-size option returns a layout without error. -/
theorem figsize_empty_bands_counterexample :
    plot_lc_setup (fun _ => ⟨"u", 3500⟩) (fun _ => 1)
        (some ⟨[⟨0, .byBand ⟨"g", 4000⟩, 1, 1⟩]⟩) none
        (some [.byName "u"]) none none (some 6) [] 1
      = .error "float division by zero"
    ∧ except_raised
        (plot_lc_setup (fun _ => ⟨"u", 3500⟩) (fun _ => 1)
          (some ⟨[⟨0, .byBand ⟨"g", 4000⟩, 1, 1⟩]⟩) none
          (some [.byName "u"]) none none none [] 1) = false := by
  constructor <;> decide

/-- C7 as amended: every call of `plot_lc` with both `xfigsize` and
`yfigsize` given raises an error.  With at most one of them given, the
figure-size computation produces a size without error whenever its divisor
is nonzero (`ncol` for the `xfigsize` branch, `nrow` for the `yfigsize`
branch; in `plot_lc` the column count is the constant 2); in the one
remaining case, only `yfigsize` given while the selected band set is empty
(`nrow = 0`), it raises `ZeroDivisionError`. -/
theorem figsize_both_given (registry : String → Bandpass)
    (scale : BandRef → ℚ) (data : Option PhotData) (model : Option ModelArg)
    (bands : Option (List BandRef)) (offsets : Option (List (BandRef × ℚ)))
    (a b : ℚ) (ft : List String) (fts : ℚ) :
    (∃ e, plot_lc_setup registry scale data model bands offsets
        (some a) (some b) ft fts = .error e)
    ∧ (∀ (nc nr : ℤ) (x y : Option ℚ), (x = none ∨ y = none) →
        (∀ v : ℚ, x = some v → nc ≠ 0) → (∀ v : ℚ, y = some v → nr ≠ 0) →
        ∃ s, figsize_calc nc nr x y = .ok s)
    ∧ (∀ (nc : ℤ) (v : ℚ),
        figsize_calc nc 0 none (some v) = .error "float division by zero") := by
  refine ⟨?_, ?_, ?_⟩
  · unfold plot_lc_setup
    by_cases h1 : (data.isNone && model.isNone) = true
    · rw [if_pos h1]; exact ⟨_, rfl⟩
    · rw [if_neg h1]
      by_cases h2 : (data.isNone && bands.isNone) = true
      · rw [if_pos h2]; exact ⟨_, rfl⟩
      · rw [if_neg h2]
        exact ⟨_, rfl⟩
  · rintro nc nr x y hxy hx hy
    cases x with
    | none =>
      cases y with
      | none => exact ⟨_, rfl⟩
      | some v =>
        exact ⟨(4 / 3 * (nc : ℚ) / (nr : ℚ) * v, v), by
          simp only [figsize_calc]
          rw [if_neg (hy v rfl)]⟩
    | some v =>
      cases y with
      | none =>
        exact ⟨(v, 3 / 4 * (nr : ℚ) / (nc : ℚ) * v), by
          simp only [figsize_calc]
          rw [if_neg (hx v rfl)]⟩
      | some w =>
        rcases hxy with h | h <;> simp at h
  · intro nc v
    simp [figsize_calc]

/-- Witness for the amended C7 at concrete arguments: both sizes given
errors, one size with nonzero divisor succeeds, and `yfigsize` with an
empty band grid errors. -/
theorem figsize_both_given_witness :
    (∃ e, plot_lc_setup (fun _ => ⟨"b", 5000⟩) (fun _ => 1) none
        (some (.listOf [])) (some []) none (some 8) (some 6) [] 1 = .error e)
    ∧ (∃ s, figsize_calc 2 1 (some 8) none = .ok s)
    ∧ figsize_calc 2 0 none (some 6) = .error "float division by zero" :=
  ⟨(figsize_both_given (fun _ => ⟨"b", 5000⟩) (fun _ => 1) none
      (some (.listOf [])) (some []) none 8 6 [] 1).1,
   (figsize_both_given (fun _ => ⟨"b", 5000⟩) (fun _ => 1) none
      (some (.listOf [])) (some []) none 8 6 [] 1).2.1 2 1 (some 8) none
      (Or.inr rfl)
      (fun v hv => by norm_num)
      (fun v hv => by simp at hv),
   (figsize_both_given (fun _ => ⟨"b", 5000⟩) (fun _ => 1) none
      (some (.listOf [])) (some []) none 8 6 [] 1).2.2 2 6⟩

/-- C9: the subplot grid of `plot_lc` has exactly 2 columns, and for every
band count `n ≥ 1` the row count `(n - 1) div 2 + 1` equals `ceil(n / 2)`. -/
theorem lc_grid_rows (n : ℕ) (hn : 1 ≤ n) :
    lc_ncol = 2 ∧ lc_nrow n = (Nat.ceil ((n : ℚ) / 2) : ℤ) := by
  refine ⟨rfl, ?_⟩
  have hq : ⌈(n : ℚ) / 2⌉₊ = (n + 1) / 2 := by
    rw [Nat.ceil_eq_iff (by omega)]
    constructor
    · rw [lt_div_iff₀ (by norm_num : (0 : ℚ) < 2)]
      have h : ((n + 1) / 2 - 1) * 2 < n := by omega
      exact_mod_cast h
    · rw [div_le_iff₀ (by norm_num : (0 : ℚ) < 2)]
      have h : n ≤ (n + 1) / 2 * 2 := by omega
      exact_mod_cast h
  rw [hq]
  unfold lc_nrow lc_ncol
  rw [Int.fdiv_eq_ediv _ (by norm_num)]
  omega

/-- Witness for C9 at `n = 5`. -/
theorem lc_grid_rows_witness :
    (1 ≤ (5 : ℕ))
    ∧ (lc_ncol = 2 ∧ lc_nrow 5 = (Nat.ceil (((5 : ℕ) : ℚ) / 2) : ℤ)) :=
  ⟨by norm_num, lc_grid_rows 5 (by norm_num)⟩

/-- Helper: inside the reference wavelength range the color-map fraction is
already in [0, 1], so the clamp is the identity there. -/
theorem cmap_input_eq_fraction (u : ℚ) (h1 : 3000 ≤ u) (h2 : u ≤ 10000) :
    cmap_input u = cmap_fraction u := by
  unfold cmap_input cmap_fraction cm_wave_range
  norm_num
  rw [max_eq_right (by apply div_nonneg <;> linarith),
    min_eq_right ((div_le_one (by norm_num)).2 (by linarith))]

/-- C6: the color-map fraction of `plot_lc` is an affine function of the
effective wavelength over the reference range 3000 to 10000 Angstrom; for
wavelengths inside the range the clamped fraction is strictly monotonic
(decreasing) in wavelength, and a wavelength outside the range gets the
fraction of the corresponding map boundary. -/
theorem band_color_mapping (w w1 w2 : ℚ) :
    (∃ a b : ℚ, a ≠ 0 ∧ ∀ u, cmap_fraction u = a * u + b)
    ∧ (3000 ≤ w1 → w1 < w2 → w2 ≤ 10000 → cmap_input w2 < cmap_input w1)
    ∧ (w ≤ 3000 → cmap_input w = 1)
    ∧ (10000 ≤ w → cmap_input w = 0) := by
  refine ⟨⟨-(1 / 7000), 10 / 7, by norm_num, fun u => ?_⟩, ?_, ?_, ?_⟩
  · unfold cmap_fraction cm_wave_range
    norm_num
    ring
  · intro h1 h12 h2
    rw [cmap_input_eq_fraction w1 h1 (by linarith),
      cmap_input_eq_fraction w2 (by linarith) h2]
    unfold cmap_fraction cm_wave_range
    norm_num
    rw [div_lt_div_iff_of_pos_right (by norm_num : (0 : ℚ) < 7000)]
    linarith
  · intro hw
    unfold cmap_input cmap_fraction cm_wave_range
    norm_num
    rw [le_div_iff₀ (by norm_num : (0 : ℚ) < 7000)]
    linarith
  · intro hw
    unfold cmap_input cmap_fraction cm_wave_range
    norm_num
    have hfrac : (10000 - w) / 7000 ≤ (0 : ℚ) := by
      rw [div_nonpos_iff]
      exact Or.inr ⟨by linarith, by norm_num⟩
    rw [max_eq_left hfrac, min_eq_right (by norm_num : (0 : ℚ) ≤ 1)]

/-- Witness for C6 at concrete wavelengths. -/
theorem band_color_mapping_witness :
    ((3000 : ℚ) ≤ 4000)
    ∧ (cmap_input 5000 < cmap_input 4000)
    ∧ cmap_input 2000 = 1
    ∧ cmap_input 11000 = 0 :=
  ⟨by norm_num,
   (band_color_mapping 0 4000 5000).2.1 (by norm_num) (by norm_num)
     (by norm_num),
   (band_color_mapping 2000 0 1).2.2.1 (by norm_num),
   (band_color_mapping 11000 0 1).2.2.2 (by norm_num)⟩

/-- C10 (implicit): `plot_lc` draws the selected bands in increasing order
of effective wavelength: of two selected bands, the one with the smaller
effective wavelength gets the smaller subplot number. -/
theorem axnum_ordered_by_wavelength (bands : List Bandpass)
    (b1 b2 : Bandpass) (h1 : b1 ∈ bands) (h2 : b2 ∈ bands)
    (hw : b1.wave_eff < b2.wave_eff) :
    axnum_of bands b1 < axnum_of bands b2 := by
  unfold axnum_of
  have hs : (sort_bands bands).Sorted band_le :=
    List.sorted_insertionSort band_le bands
  have m1 : b1 ∈ sort_bands bands := (List.mem_insertionSort band_le).2 h1
  have m2 : b2 ∈ sort_bands bands := (List.mem_insertionSort band_le).2 h2
  have i1 : (sort_bands bands).indexOf b1 < (sort_bands bands).length :=
    List.indexOf_lt_length.2 m1
  have i2 : (sort_bands bands).indexOf b2 < (sort_bands bands).length :=
    List.indexOf_lt_length.2 m2
  by_contra hcon
  push_neg at hcon
  rcases lt_or_eq_of_le (Nat.le_of_succ_le_succ hcon) with hlt | heq
  · have hrel := hs.rel_get_of_lt
      (a := ⟨(sort_bands bands).indexOf b2, i2⟩)
      (b := ⟨(sort_bands bands).indexOf b1, i1⟩) hlt
    rw [List.indexOf_get, List.indexOf_get] at hrel
    exact absurd hw (not_lt.2 hrel)
  · have hget : (sort_bands bands).get ⟨(sort_bands bands).indexOf b2, i2⟩
        = (sort_bands bands).get ⟨(sort_bands bands).indexOf b1, i1⟩ := by
      congr 1
      exact Fin.ext heq
    rw [List.indexOf_get, List.indexOf_get] at hget
    rw [hget] at hw
    exact absurd hw (lt_irrefl _)

/-- Witness for C10 at a concrete two-band list. -/
theorem axnum_ordered_by_wavelength_witness :
    ((⟨"g", 4000⟩ : Bandpass) ∈ [(⟨"r", 6000⟩ : Bandpass), ⟨"g", 4000⟩])
    ∧ axnum_of [⟨"r", 6000⟩, ⟨"g", 4000⟩] ⟨"g", 4000⟩
        < axnum_of [⟨"r", 6000⟩, ⟨"g", 4000⟩] ⟨"r", 6000⟩ :=
  ⟨by simp,
   axnum_ordered_by_wavelength [⟨"r", 6000⟩, ⟨"g", 4000⟩] ⟨"g", 4000⟩
     ⟨"r", 6000⟩ (by simp) (by simp) (by norm_num)⟩

/-- Helper: a key just assigned is present. -/
theorem dict_has_set_self (d : List (BandRef × ℚ)) (k : BandRef) (v : ℚ) :
    dict_has (dict_set d k v) k = true := by
  induction d with
  | nil => simp [dict_set, dict_has, dict_find]
  | cons kv rest ih =>
    by_cases h : kv.1 = k
    · simp [dict_set, h, dict_has, dict_find]
    · simp only [dict_set, if_neg h, dict_has, dict_find]
      simpa [dict_has] using ih

/-- Helper: assignment never removes a present key. -/
theorem dict_has_set_of_has (d : List (BandRef × ℚ)) (k k2 : BandRef) (v : ℚ)
    (h : dict_has d k = true) : dict_has (dict_set d k2 v) k = true := by
  induction d with
  | nil => simp [dict_has, dict_find] at h
  | cons kv rest ih =>
    simp only [dict_has, dict_find] at h
    by_cases hk : kv.1 = k2
    · simp only [dict_set, if_pos hk, dict_has, dict_find]
      by_cases hk2 : k2 = k
      · simp [hk2]
      · rw [if_neg hk2]
        rw [if_neg (by rw [hk]; exact hk2)] at h
        exact h
    · simp only [dict_set, if_neg hk, dict_has, dict_find]
      by_cases hfst : kv.1 = k
      · rw [if_pos hfst]
        simp
      · rw [if_neg hfst]
        rw [if_neg hfst] at h
        exact ih h

/-- Helper: the fill loop of `process_offsets` preserves present keys. -/
theorem fill_fold_preserves (sel : List Bandpass) (d : List (BandRef × ℚ))
    (k : BandRef) (h : dict_has d k = true) :
    dict_has
      (sel.foldl
        (fun d b =>
          if dict_has d (.byBand b) then d else dict_set d (.byBand b) 0)
        d) k = true := by
  induction sel generalizing d with
  | nil => simpa using h
  | cons b sel ih =>
    simp only [List.foldl_cons]
    by_cases hb : dict_has d (.byBand b) = true
    · rw [if_pos hb]
      exact ih d h
    · rw [if_neg hb]
      exact ih _ (dict_has_set_of_has d k _ 0 h)

/-- Helper: the fill loop of `process_offsets` inserts every listed band. -/
theorem fill_fold_adds (sel : List Bandpass) (b : Bandpass) (hb : b ∈ sel) :
    ∀ d : List (BandRef × ℚ),
    dict_has
      (sel.foldl
        (fun d b =>
          if dict_has d (.byBand b) then d else dict_set d (.byBand b) 0)
        d) (.byBand b) = true := by
  induction sel with
  | nil => simp at hb
  | cons a sel ih =>
    intro d
    simp only [List.foldl_cons]
    rcases List.mem_cons.1 hb with rfl | hmem
    · by_cases ha : dict_has d (.byBand b) = true
      · rw [if_pos ha]
        exact fill_fold_preserves sel d _ ha
      · rw [if_neg ha]
        exact fill_fold_preserves sel _ _ (dict_has_set_self d _ 0)
    · by_cases ha : dict_has d (.byBand a) = true
      · rw [if_pos ha]
        exact ih hmem d
      · rw [if_neg ha]
        exact ih hmem _

/-- Counterexample to C8: `plot_lc` mutates the offsets mapping it is
passed.  With an empty offsets dict and one selected band, the dict after
the in-place update of lines 146 to 152 differs from the dict that was
passed in (a zero entry for the band has been inserted). -/
theorem process_offsets_mutates_counterexample :
    process_offsets (fun _ => ⟨"b", 5000⟩) [⟨"b", 5000⟩] [] ≠ [] := by
  decide

/-- C8 as amended: the dataset and the models are only read, but the
offsets mapping is mutated in place: its keys are replaced by resolved
bandpasses and every selected band missing from it is inserted with offset
0, so after the call the mapping has an entry for every selected band. -/
theorem process_offsets_fills_bands (registry : String → Bandpass)
    (sel : List Bandpass) (offsets : List (BandRef × ℚ)) (b : Bandpass)
    (hb : b ∈ sel) :
    dict_has (process_offsets registry sel offsets) (.byBand b) = true := by
  unfold process_offsets
  exact fill_fold_adds sel b hb _

/-- Witness for the amended C8 at a concrete call. -/
theorem process_offsets_fills_bands_witness :
    ((⟨"b", 5000⟩ : Bandpass) ∈ [(⟨"b", 5000⟩ : Bandpass)])
    ∧ dict_has
        (process_offsets (fun _ => ⟨"b", 5000⟩) [⟨"b", 5000⟩] [])
        (.byBand ⟨"b", 5000⟩) = true :=
  ⟨by simp,
   process_offsets_fills_bands (fun _ => ⟨"b", 5000⟩) [⟨"b", 5000⟩] []
     ⟨"b", 5000⟩ (by simp)⟩

/-- Counterexample to C5: with a per-band offsets mapping in effect, the
plotted pull is not `(observed - model) / error`.  Concrete call: one data
point with flux 1 and error 1, a model with band flux 0, and an offset of 2
for the band; the plotted pull is -1 while the claimed formula gives 1. -/
theorem pulls_offset_counterexample :
    pulls_panel (fun _ => ⟨"b", 5000⟩) true
        (some ⟨[⟨0, .byBand ⟨"b", 5000⟩, 1, 1⟩]⟩)
        [⟨"m", [], [0, 0], fun _ => true, fun _ _ => 0⟩]
        (some [(.byBand ⟨"b", 5000⟩, 2)]) ⟨"b", 5000⟩
      ≠ some ((band_data_points (fun _ => ⟨"b", 5000⟩)
          ⟨[⟨0, .byBand ⟨"b", 5000⟩, 1, 1⟩]⟩ ⟨"b", 5000⟩).map fun p =>
            (p.flux
              - ObsModel.bandflux_at ⟨"m", [], [0, 0], fun _ => true,
                  fun _ _ => 0⟩ ⟨"b", 5000⟩ p.time) / p.fluxerr) := by
  have hL : pulls_panel (fun _ => ⟨"b", 5000⟩) true
      (some ⟨[⟨0, .byBand ⟨"b", 5000⟩, 1, 1⟩]⟩)
      [⟨"m", [], [0, 0], fun _ => true, fun _ _ => 0⟩]
      (some [(.byBand ⟨"b", 5000⟩, 2)]) ⟨"b", 5000⟩
      = some [(-1 : ℚ)] := by
    simp [pulls_panel, pull_value, band_data_points, dict_find, get_bandpass,
      List.headI]
    norm_num
  have hR : ((band_data_points (fun _ => ⟨"b", 5000⟩)
      ⟨[⟨0, .byBand ⟨"b", 5000⟩, 1, 1⟩]⟩ ⟨"b", 5000⟩).map fun p =>
        (p.flux
          - ObsModel.bandflux_at ⟨"m", [], [0, 0], fun _ => true,
              fun _ _ => 0⟩ ⟨"b", 5000⟩ p.time) / p.fluxerr)
      = [(1 : ℚ)] := by
    simp [band_data_points, get_bandpass]
  rw [hL, hR]
  intro h
  rw [Option.some_inj] at h
  have h1 := List.head_eq_of_cons_eq h
  norm_num at h1

/-- C5 as amended: with data, exactly one model, the pulls flag enabled and
a band the model overlaps, the residual plotted for each data point of the
band equals `(observed flux - (model band flux at the point time + o)) /
flux uncertainty`, where `o` is the entry of the offsets mapping for the
band and 0 when there is no offsets mapping or no entry; in particular with
no offsets mapping it is `(observed - model) / error` as claimed. -/
theorem pulls_panel_formula (registry : String → Bandpass) (d : PhotData)
    (m : ObsModel) (offsets : Option (List (BandRef × ℚ)))
    (band : Bandpass) (hov : m.bandoverlap band = true) :
    pulls_panel registry true (some d) [m] offsets band
      = some ((band_data_points registry d band).map fun p =>
          (p.flux
            - (m.bandflux_at band p.time + offset_applied offsets band))
            / p.fluxerr)
    ∧ pulls_panel registry true (some d) [m] none band
      = some ((band_data_points registry d band).map fun p =>
          (p.flux - m.bandflux_at band p.time) / p.fluxerr) := by
  have hfun : ∀ offs : Option (List (BandRef × ℚ)), pull_value m band offs
      = fun p : PhotPoint =>
        (p.flux - (m.bandflux_at band p.time + offset_applied offs band))
          / p.fluxerr := by
    intro offs
    funext p
    unfold pull_value offset_applied
    cases offs with
    | none => norm_num
    | some dl =>
      cases hdf : dict_find dl (.byBand band) with
      | none => simp [hdf]
      | some o => simp [hdf]
  constructor
  · simp only [pulls_panel, List.headI, hov, List.length_singleton,
      beq_self_eq_true, Bool.and_self, Bool.and_true, Bool.true_and,
      if_true]
    rw [hfun offsets]
  · simp only [pulls_panel, List.headI, hov, List.length_singleton,
      beq_self_eq_true, Bool.and_self, Bool.and_true, Bool.true_and,
      if_true]
    rw [hfun none]
    simp [offset_applied]

/-- Witness for the amended C5 at a concrete call. -/
theorem pulls_panel_formula_witness :
    (ObsModel.bandoverlap
        ⟨"m", [], [0, 0], fun _ => true, fun _ _ => 0⟩ ⟨"b", 5000⟩ = true)
    ∧ (pulls_panel (fun _ => ⟨"b", 5000⟩) true
        (some ⟨[⟨0, .byBand ⟨"b", 5000⟩, 1, 1⟩]⟩)
        [⟨"m", [], [0, 0], fun _ => true, fun _ _ => 0⟩]
        (some [(.byBand ⟨"b", 5000⟩, 2)]) ⟨"b", 5000⟩
      = some ((band_data_points (fun _ => ⟨"b", 5000⟩)
          ⟨[⟨0, .byBand ⟨"b", 5000⟩, 1, 1⟩]⟩ ⟨"b", 5000⟩).map fun p =>
            (p.flux
              - (ObsModel.bandflux_at ⟨"m", [], [0, 0], fun _ => true,
                  fun _ _ => 0⟩ ⟨"b", 5000⟩ p.time
                + offset_applied (some [(.byBand ⟨"b", 5000⟩, 2)])
                    ⟨"b", 5000⟩)) / p.fluxerr)) :=
  ⟨rfl,
   (pulls_panel_formula (fun _ => ⟨"b", 5000⟩)
      ⟨[⟨0, .byBand ⟨"b", 5000⟩, 1, 1⟩]⟩
      ⟨"m", [], [0, 0], fun _ => true, fun _ _ => 0⟩
      (some [(.byBand ⟨"b", 5000⟩, 2)]) ⟨"b", 5000⟩ rfl).1⟩

/-- Helper: expansion of a weighted sum of squared deviations. -/
theorem zipWith_weighted_sq (w xs : List ℝ) (c : ℝ)
    (h : w.length = xs.length) :
    (List.zipWith (fun a x => a * (x - c) ^ 2) w xs).sum
      = (List.zipWith (fun a x => a * x) w (xs.map fun x => x ^ 2)).sum
        - 2 * c * (List.zipWith (fun a x => a * x) w xs).sum
        + c ^ 2 * w.sum := by
  induction w generalizing xs with
  | nil => simp
  | cons a w ih =>
    cases xs with
    | nil => simp at h
    | cons x xs =>
      simp only [List.zipWith_cons_cons, List.map_cons, List.sum_cons]
      rw [ih xs (by simpa using h)]
      ring

/-- Counterexample to C2: with a weight vector that does not sum to 1, the
window used by the code is not the one built from the weighted mean and the
weighted standard deviation.  Concrete input: one parameter with samples 0
and 1 and weights 2 and 2; the code uses half width `5 * sqrt(7/4)` while
the weighted standard deviation gives `5 * (1/2)`. -/
theorem param_window_weighted_counterexample :
    param_samples_window [[0], [1]] (some [2, 2]) 0
      ≠ spec_window (sample_column [[0], [1]] 0) (some [2, 2]) := by
  have hcol : sample_column [[0], [1]] 0 = [(0 : ℝ), 1] := by
    simp [sample_column]
  have havg : np_average [(0 : ℝ), 1] (some [2, 2]) = 1 / 2 := by
    simp [np_average]
    norm_num
  have hargL : (List.zipWith (fun a x => a * x) [(2 : ℝ), 2]
      ([(0 : ℝ), 1].map fun x => x ^ 2)).sum
      - np_average [(0 : ℝ), 1] (some [2, 2]) ^ 2 = 7 / 4 := by
    rw [havg]
    simp
    norm_num
  have hstdL : sample_std [(0 : ℝ), 1] (some [2, 2]) = Real.sqrt (7 / 4) := by
    simp only [sample_std]
    rw [hargL]
  have hmu : spec_weighted_mean [(2 : ℝ), 2] [(0 : ℝ), 1] = 1 / 2 := by
    simp [spec_weighted_mean]
    norm_num
  have hargR : (List.zipWith
      (fun a x => a * (x - spec_weighted_mean [(2 : ℝ), 2] [(0 : ℝ), 1]) ^ 2)
      [(2 : ℝ), 2] [(0 : ℝ), 1]).sum / ([(2 : ℝ), 2]).sum = 1 / 4 := by
    rw [hmu]
    simp
    norm_num
  have hstdR : spec_weighted_std [(2 : ℝ), 2] [(0 : ℝ), 1] = 1 / 2 := by
    simp only [spec_weighted_std]
    rw [hargR]
    rw [show (1 : ℝ) / 4 = (1 / 2) ^ 2 by norm_num,
      Real.sqrt_sq (by norm_num : (0 : ℝ) ≤ 1 / 2)]
  intro hEq
  have h2 := congrArg Prod.snd hEq
  simp only [param_samples_window, spec_window, hcol] at h2
  rw [havg, hstdL, hmu, hstdR] at h2
  have hgt : (1 : ℝ) < Real.sqrt (7 / 4) := by
    rw [show (1 : ℝ) = Real.sqrt 1 from Real.sqrt_one.symm]
    exact Real.sqrt_lt_sqrt (by norm_num) (by norm_num)
  linarith

/-- C2 as amended: the displayed window for parameter `i` is exactly
`[mean_i - 5*std_i, mean_i + 5*std_i]` with the unweighted mean and
standard deviation of column `i` when no weight vector is given, and with
the weighted mean and weighted standard deviation when a weight vector of
matching length summing to 1 is given (for a general weight vector the half
width is `5 * sqrt(sum(w * x^2) - mean^2)` instead). -/
theorem param_window_normalized (samples : List (List ℝ))
    (ws : Option (List ℝ)) (i : ℕ)
    (h : ∀ w, ws = some w →
      w.length = (sample_column samples i).length ∧ w.sum = 1) :
    param_samples_window samples ws i
      = spec_window (sample_column samples i) ws := by
  cases ws with
  | none => rfl
  | some w =>
    obtain ⟨hlen, hsum⟩ := h w rfl
    have havg : np_average (sample_column samples i) (some w)
        = spec_weighted_mean w (sample_column samples i) := rfl
    have hmu : spec_weighted_mean w (sample_column samples i)
        = (List.zipWith (fun a x => a * x) w (sample_column samples i)).sum := by
      unfold spec_weighted_mean
      rw [hsum, div_one]
    have hstd : sample_std (sample_column samples i) (some w)
        = spec_weighted_std w (sample_column samples i) := by
      simp only [sample_std, spec_weighted_std]
      congr 1
      rw [hsum, div_one]
      rw [zipWith_weighted_sq w (sample_column samples i)
        (spec_weighted_mean w (sample_column samples i)) hlen]
      rw [hsum, havg, hmu]
      ring
    unfold param_samples_window spec_window
    rw [havg, hstd]

/-- Witness for the amended C2 at a concrete normalized weight vector. -/
theorem param_window_normalized_witness :
    (([(1 : ℝ) / 2, 1 / 2].sum = 1)
      ∧ [(1 : ℝ) / 2, 1 / 2].length = (sample_column [[0], [1]] 0).length)
    ∧ param_samples_window [[0], [1]] (some [(1 : ℝ) / 2, 1 / 2]) 0
        = spec_window (sample_column [[0], [1]] 0)
            (some [(1 : ℝ) / 2, 1 / 2]) := by
  refine ⟨⟨by norm_num, by simp [sample_column]⟩, ?_⟩
  exact param_window_normalized [[0], [1]] (some [(1 : ℝ) / 2, 1 / 2]) 0
    (by
      intro w hw
      obtain rfl : w = [(1 : ℝ) / 2, 1 / 2] := (Option.some_inj.1 hw).symm
      exact ⟨by simp [sample_column], by norm_num⟩)

end SncosmoPlotting
